import Mathlib

/-!
Verification of the Omni Source CSV formatter (src/app.py).

Strings are modelled as lists of characters (`PyStr`). Cell values are
either a missing marker (pandas NaN) or a string; the app reads CSV text,
so cells are modelled textually. Python string primitives (`lower`,
`strip`, `replace`, substring test) are modelled on ASCII: `lower` maps
ASCII letters, `strip` removes ASCII whitespace, matching Python behaviour
on the ASCII inputs this pipeline manipulates.
-/

abbrev PyStr := List Char

/-- ASCII whitespace characters removed by Python `str.strip()`. -/
def pyIsSpace (c : Char) : Bool :=
  decide (c = ' ' ∨ c = Char.ofNat 9 ∨ c = Char.ofNat 10 ∨ c = Char.ofNat 13 ∨
          c = Char.ofNat 11 ∨ c = Char.ofNat 12)

/-- Python `str.lower()` (ASCII). -/
def pyLower (s : PyStr) : PyStr := s.map Char.toLower

/-- Python `str.strip()`: drop leading and trailing whitespace. -/
def pyStrip (s : PyStr) : PyStr :=
  ((s.dropWhile pyIsSpace).reverse.dropWhile pyIsSpace).reverse

/-- Python `str.replace(c, "")`: remove every occurrence of a character. -/
def removeChar (c : Char) (s : PyStr) : PyStr := s.filter (fun a => decide (a ≠ c))

/-- Python `needle in hay` on strings: substring containment. -/
def containsSub (needle hay : PyStr) : Bool := decide (needle <:+: hay)

/-- A cell of the input table: pandas missing marker (NaN) or a string. -/
inductive Cell where
  | missing : Cell
  | str (s : PyStr) : Cell
deriving DecidableEq

/-- Python `str(x)` on a cell: the missing marker NaN prints as "nan"
(this is what `.astype(str)` produces for missing values). -/
def cellStr : Cell → PyStr
  | Cell.missing => 'n' :: 'a' :: 'n' :: []
  | Cell.str s => s

/-- Python `pd.isna` on a cell. -/
def cellIsNa : Cell → Bool
  | Cell.missing => true
  | Cell.str _ => false

/-! ### Column detection (`_pick_column`, src/app.py lines 66-78) -/

/-- Normalisation used for the exact-match phase: `c.lower().strip()`. -/
def normKey (s : PyStr) : PyStr := pyStrip (pyLower s)

/-- Normalisation used for the substring phase: `c.lower().replace(" ", "")`. -/
def normSub (s : PyStr) : PyStr := removeChar ' ' (pyLower s)

/-- Lookup in `lower_map = {c.lower().strip(): c for c in cols}`: a Python
dict comprehension keeps the LAST column producing each key, so the lookup
returns the last column whose normalised form equals the key. -/
def lowerMapGet (cols : List PyStr) (key : PyStr) : Option PyStr :=
  (cols.filter (fun c => decide (normKey c = key))).getLast?

/-- Phase 1 of `_pick_column`: first candidate (in list order) whose
normalised form is a key of `lower_map`; return the mapped column. -/
def exactPhase (cols cands : List PyStr) : Option PyStr :=
  cands.findSome? (fun cand => lowerMapGet cols (normKey cand))

/-- Phase 2 of `_pick_column`: first column (in table order) whose
space-stripped lower-cased form contains some candidate's space-stripped
lower-cased form. -/
def substrPhase (cols cands : List PyStr) : Option PyStr :=
  cols.find? (fun c => cands.any (fun cand => containsSub (normSub cand) (normSub c)))

/-- `_pick_column(df, candidates)` over the header list. -/
def pick_column (cols cands : List PyStr) : Option PyStr :=
  match exactPhase cols cands with
  | some h => some h
  | none => substrPhase cols cands

/-! ### Numeric normalisation (`to_numeric_value`, src/app.py lines 34-46)

Numbers are modelled as rationals. `parseFloat` models Python `float(s)`
on finite decimal literals (optional sign, digits, decimal point,
exponent); the exotic literals `inf`/`nan`/underscores are outside the
inputs this pipeline is specified on and are treated as unparseable. -/

def dval (c : Char) : ℕ := c.toNat - 48

def digitsToNat (s : PyStr) : ℕ := s.foldl (fun a c => 10 * a + dval c) 0

def pow10 (n : ℕ) : ℕ := 10 ^ n

/-- Exponent suffix of a float literal (`e`/`E` already consumed): it
scales the exact mantissa `num / den` by a power of ten. -/
def parseExp (num : ℤ) (den : ℕ) (r3 : PyStr) : Option ℚ :=
  let esignRest : Bool × PyStr :=
    match r3 with
    | '+' :: r => (false, r)
    | '-' :: r => (true, r)
    | _ => (false, r3)
  let ed := esignRest.2.takeWhile Char.isDigit
  if ed = [] ∨ esignRest.2.dropWhile Char.isDigit ≠ [] then none
  else if esignRest.1 then some (mkRat num (den * pow10 (digitsToNat ed)))
  else some (mkRat (num * ((pow10 (digitsToNat ed) : ℕ) : ℤ)) den)

/-- Python `float(s)` on a finite decimal literal: optional sign, integer
part, optional fractional part, optional exponent, yielding the exact
rational value `±(ip.fp) * 10^±e`. -/
def parseFloat (s : PyStr) : Option ℚ :=
  let t := pyStrip s
  let signRest : Bool × PyStr :=
    match t with
    | '+' :: r => (false, r)
    | '-' :: r => (true, r)
    | _ => (false, t)
  let neg := signRest.1
  let t1 := signRest.2
  let ip := t1.takeWhile Char.isDigit
  let r1 := t1.dropWhile Char.isDigit
  let fpRest : PyStr × PyStr :=
    match r1 with
    | '.' :: r => (r.takeWhile Char.isDigit, r.dropWhile Char.isDigit)
    | _ => ([], r1)
  let fp := fpRest.1
  let r2 := fpRest.2
  if ip = [] ∧ fp = [] then none
  else
    let m : ℤ := ((digitsToNat ip * pow10 fp.length + digitsToNat fp : ℕ) : ℤ)
    let num : ℤ := if neg then -m else m
    match r2 with
    | [] => some (mkRat num (pow10 fp.length))
    | 'e' :: r3 => parseExp num (pow10 fp.length) r3
    | 'E' :: r3 => parseExp num (pow10 fp.length) r3
    | _ => none

/-- Model of `float(pd.to_numeric(s, errors="coerce"))`: the pandas
coercion parses the same decimal grammar as `float`; on anything else it
yields NaN, which is a missing value for every downstream consumer
(`astype("Float64")` turns it into pandas NA). -/
def lenientNumeric (s : PyStr) : Option ℚ := parseFloat s

/-- `to_numeric_value(x)` (src/app.py lines 34-46). -/
def to_numeric_value (x : Cell) : Option ℚ :=
  match x with
  | Cell.missing => none
  | Cell.str raw =>
    if pyStrip raw = [] then none
    else
      let s := removeChar ' ' (removeChar ',' raw)
      let s2 := if s.head? = some '(' ∧ s.getLast? = some ')' then
                  '-' :: (s.drop 1).dropLast
                else s
      match parseFloat s2 with
      | some q => some q
      | none => lenientNumeric s2

/-- The claim's description of the non-empty branch: remove commas and
spaces, then treat a parenthesised value as negated. -/
def parenSigned (s : PyStr) : PyStr :=
  if s.head? = some '(' ∧ s.getLast? = some ')' then '-' :: (s.drop 1).dropLast else s

/-! ### Rounding (`balance.round(2)`)

pandas rounds half to even (IEEE); modelled on rationals. -/

/-- Round half to even, in integer arithmetic: with `f = ⌊q⌋`, compare
twice the fractional part's numerator against the denominator. -/
def roundHalfEven (q : ℚ) : ℤ :=
  let f := q.floor
  let r2 := 2 * (q.num - f * (q.den : ℤ))
  if r2 < (q.den : ℤ) then f
  else if (q.den : ℤ) < r2 then f + 1
  else if f % 2 = 0 then f else f + 1

/-- `round(2)`: scale by 100 (exactly: `q * 100 = (100 num) / den`),
round half to even, divide by 100. -/
def round2 (q : ℚ) : ℚ := mkRat (roundHalfEven (mkRat (q.num * 100) q.den)) 100

/-! ### Date parsing (`parse_date_value`, src/app.py lines 15-31)

CPython implements `strptime` in pure Python with a regex per directive:
`%d` is `3[01]|[12]\d|0[1-9]|[1-9]`, `%m` is `1[0-2]|0[1-9]|[1-9]`, `%Y`
is exactly four digits, and the whole string must be consumed. `readNum2`
models the one-or-two-digit directives: two digits when the two-digit
value is in range, otherwise a single nonzero digit. The
`pd.to_datetime(..., dayfirst=True)` fallback is an external lenient
parser; it is taken as a parameter `fb` so every theorem holds for any
behaviour of that fallback. -/

structure Date where
  year : ℕ
  month : ℕ
  day : ℕ
deriving DecidableEq

def isLeap (y : ℕ) : Bool := decide (y % 4 = 0 ∧ (y % 100 ≠ 0 ∨ y % 400 = 0))

def daysInMonth (y m : ℕ) : ℕ :=
  if m = 2 then (if isLeap y then 29 else 28)
  else if m = 4 ∨ m = 6 ∨ m = 9 ∨ m = 11 then 30
  else 31

/-- The dates representable by `datetime.date` with a well-formed
day/month, restricted as CPython does to years 1-9999. -/
def validDate (d : Date) : Bool :=
  decide (1 ≤ d.year ∧ d.year ≤ 9999 ∧ 1 ≤ d.month ∧ d.month ≤ 12 ∧
          1 ≤ d.day ∧ d.day ≤ daysInMonth d.year d.month)

inductive FmtItem where
  | dd : FmtItem
  | mm : FmtItem
  | yyyy : FmtItem
  | lit (c : Char) : FmtItem
deriving DecidableEq

abbrev Fmt := List FmtItem

def fmtDMYslash : Fmt := [FmtItem.dd, FmtItem.lit '/', FmtItem.mm, FmtItem.lit '/', FmtItem.yyyy]
def fmtDMYdash : Fmt := [FmtItem.dd, FmtItem.lit '-', FmtItem.mm, FmtItem.lit '-', FmtItem.yyyy]
def fmtYMDdash : Fmt := [FmtItem.yyyy, FmtItem.lit '-', FmtItem.mm, FmtItem.lit '-', FmtItem.dd]
def fmtMDYslash : Fmt := [FmtItem.mm, FmtItem.lit '/', FmtItem.dd, FmtItem.lit '/', FmtItem.yyyy]
def fmtYMDslash : Fmt := [FmtItem.yyyy, FmtItem.lit '/', FmtItem.mm, FmtItem.lit '/', FmtItem.dd]
def fmtDMYdot : Fmt := [FmtItem.dd, FmtItem.lit '.', FmtItem.mm, FmtItem.lit '.', FmtItem.yyyy]

/-- The ordered strict-format list of `parse_date_value`. -/
def dateFormats : List Fmt :=
  [fmtDMYslash, fmtDMYdash, fmtYMDdash, fmtMDYslash, fmtYMDslash, fmtDMYdot]

/-- Two-digit zero-padded rendering (`strftime` `%d` / `%m`). -/
def pad2 (n : ℕ) : PyStr := [Nat.digitChar (n / 10 % 10), Nat.digitChar (n % 10)]

/-- Four-digit zero-padded rendering (`strftime` `%Y`). -/
def pad4 (n : ℕ) : PyStr :=
  [Nat.digitChar (n / 1000 % 10), Nat.digitChar (n / 100 % 10),
   Nat.digitChar (n / 10 % 10), Nat.digitChar (n % 10)]

def renderItem (d : Date) : FmtItem → PyStr
  | FmtItem.dd => pad2 d.day
  | FmtItem.mm => pad2 d.month
  | FmtItem.yyyy => pad4 d.year
  | FmtItem.lit c => [c]

/-- `strftime` of a date against a format. -/
def renderFmt (f : Fmt) (d : Date) : PyStr :=
  match f with
  | [] => []
  | it :: rest => renderItem d it ++ renderFmt rest d

/-- `strptime` `%d`/`%m`: two digits when the two-digit value lies in
`1..hi`, otherwise one nonzero digit (CPython's regex alternation). -/
def readNum2 (hi : ℕ) : PyStr → Option (ℕ × PyStr)
  | [] => none
  | [a] =>
    if a.isDigit = true then
      (if 1 ≤ dval a ∧ dval a ≤ 9 then some (dval a, []) else none)
    else none
  | a :: b :: tail2 =>
    if a.isDigit = true then
      (if b.isDigit = true ∧ 1 ≤ 10 * dval a + dval b ∧ 10 * dval a + dval b ≤ hi then
        some (10 * dval a + dval b, tail2)
      else if 1 ≤ dval a ∧ dval a ≤ 9 then some (dval a, b :: tail2)
      else none)
    else none

/-- `strptime` `%Y`: exactly four digits. -/
def read4 : PyStr → Option (ℕ × PyStr)
  | a :: b :: c :: d :: rest =>
    if a.isDigit = true ∧ b.isDigit = true ∧ c.isDigit = true ∧ d.isDigit = true then
      some (1000 * dval a + 100 * dval b + 10 * dval c + dval d, rest)
    else none
  | _ => none

/-- Fields collected while matching a format (strptime defaults 1900-01-01). -/
structure PreDate where
  day : ℕ
  month : ℕ
  year : ℕ
deriving DecidableEq

def runFmt : Fmt → PreDate → PyStr → Option PreDate
  | [], acc, s => if s = [] then some acc else none
  | FmtItem.lit c :: rest, acc, s =>
    match s with
    | x :: xs => if x = c then runFmt rest acc xs else none
    | [] => none
  | FmtItem.dd :: rest, acc, s =>
    (readNum2 31 s).bind (fun p => runFmt rest { acc with day := p.1 } p.2)
  | FmtItem.mm :: rest, acc, s =>
    (readNum2 12 s).bind (fun p => runFmt rest { acc with month := p.1 } p.2)
  | FmtItem.yyyy :: rest, acc, s =>
    (read4 s).bind (fun p => runFmt rest { acc with year := p.1 } p.2)

/-- `datetime.strptime(s, fmt).date()`, `None` on any parse error
(including an out-of-range date rejected by the `datetime` constructor). -/
def strptimeF (f : Fmt) (s : PyStr) : Option Date :=
  match runFmt f ⟨1, 1, 1900⟩ s with
  | none => none
  | some pre =>
    if validDate ⟨pre.year, pre.month, pre.day⟩ = true then some ⟨pre.year, pre.month, pre.day⟩
    else none

def tryFormats : List Fmt → PyStr → Option Date
  | [], _ => none
  | f :: fs, s =>
    match strptimeF f s with
    | some d => some d
    | none => tryFormats fs s

/-- `parse_date_value(val)` (src/app.py lines 15-31); `fb` is the
`pd.to_datetime(s, dayfirst=True, errors="coerce")` lenient fallback. -/
def parse_date_value (fb : PyStr → Option Date) : Cell → Option Date
  | Cell.missing => none
  | Cell.str raw =>
    let s := pyStrip raw
    match tryFormats dateFormats s with
    | some d => some d
    | none => fb s

/-- Per-cell body of `_format_date_series` (src/app.py lines 81-83):
`d.strftime("%d/%m/%Y")` on success, empty string on NaT. -/
def formatDateCell (fb : PyStr → Option Date) (c : Cell) : PyStr :=
  match parse_date_value fb c with
  | some d => renderFmt fmtDMYslash d
  | none => []

/-- The claim's expected output rendering: zero-padded DD/MM/YYYY. -/
def ddmmyyyy (d : Date) : PyStr := pad2 d.day ++ '/' :: (pad2 d.month ++ '/' :: pad4 d.year)

/-! ### Debtor Reference (`.str.extract(r"(\d{6})$")`, src/app.py lines 111-113) -/

/-- Last six characters of a string. -/
def lastSix (s : PyStr) : PyStr := s.drop (s.length - 6)

/-- The string ends in at least six digit characters. -/
def endsSixDigits (s : PyStr) : Bool := decide (6 ≤ s.length) && (lastSix s).all Char.isDigit

/-- `re.search(r"(\d{6})$", s)`: six digits at the end of the string, or
(Python `$` semantics) six digits just before a newline that is the last
character of the string. -/
def reSearchSixEnd (s : PyStr) : Option PyStr :=
  if endsSixDigits s = true then some (lastSix s)
  else if s.getLast? = some '\n' then
    (if endsSixDigits s.dropLast = true then some (lastSix s.dropLast) else none)
  else none

/-- Debtor Reference of one cell: `astype(str).str.extract(r"(\d{6})$",
expand=False).fillna("")`. -/
def debtorRefOf (c : Cell) : PyStr := (reSearchSixEnd (cellStr c)).getD []

/-- The claim's description (amended): the last six digits of the string,
also accepting them just before one trailing newline; otherwise empty. -/
def debtorRefSpec (s : PyStr) : PyStr :=
  if endsSixDigits s = true then lastSix s
  else if s.getLast? = some '\n' ∧ endsSixDigits s.dropLast = true then lastSix s.dropLast
  else []

/-! ### Transform pipeline (`process_dataframe`, src/app.py lines 86-132) -/

structure Table where
  headers : List PyStr
  rows : List (List Cell)
deriving DecidableEq

structure OutRow where
  debtorRef : PyStr
  ttype : PyStr
  docNumber : PyStr
  docDate : PyStr
  docBalance : Option ℚ
deriving DecidableEq

structure OutTable where
  rows : List OutRow
deriving DecidableEq

/-- The diagnostics record (`debug`): detected columns and removed-row count. -/
structure Diag where
  custCol : Option PyStr
  docnoCol : Option PyStr
  dateCol : Option PyStr
  balCol : Option PyStr
  removed : ℕ
deriving DecidableEq

def CUST_ID_COL_CANDIDATES : List PyStr := [("customer_id").data]
def TRANS_NO_COL_CANDIDATES : List PyStr := [("transaction_number").data]
def DATE_COL_CANDIDATES : List PyStr := [("date").data]
def BALANCE_COL_CANDIDATES : List PyStr := [("balance").data]

def keyCust : PyStr := ("customer_id → Debtor Reference").data
def keyDocno : PyStr := ("transaction_number → Document Number").data
def keyDate : PyStr := ("date → Document Date").data
def keyBal : PyStr := ("balance → Document Balance").data

def msgHead : PyStr := ("Missing required columns: ").data

/-- Python `", ".join(xs)`. -/
def joinComma : List PyStr → PyStr
  | [] => []
  | [x] => x
  | x :: y :: rest => x ++ ',' :: ' ' :: joinComma (y :: rest)

/-- The `detected_columns` entry of the diagnostics, in insertion order. -/
def detectedPairs (t : Table) : List (PyStr × Option PyStr) :=
  [(keyCust, pick_column t.headers CUST_ID_COL_CANDIDATES),
   (keyDocno, pick_column t.headers TRANS_NO_COL_CANDIDATES),
   (keyDate, pick_column t.headers DATE_COL_CANDIDATES),
   (keyBal, pick_column t.headers BALANCE_COL_CANDIDATES)]

/-- `missing = [k for k, v in detected.items() if v is None]`. -/
def missingKeys (t : Table) : List PyStr :=
  ((detectedPairs t).filter (fun p => p.2.isNone)).map Prod.fst

/-- The claim's description of the absent human-readable keys, one check
per logical field, in the fixed field order. -/
def absentKeys (t : Table) : List PyStr :=
  (if pick_column t.headers CUST_ID_COL_CANDIDATES = none then [keyCust] else []) ++
  (if pick_column t.headers TRANS_NO_COL_CANDIDATES = none then [keyDocno] else []) ++
  (if pick_column t.headers DATE_COL_CANDIDATES = none then [keyDate] else []) ++
  (if pick_column t.headers BALANCE_COL_CANDIDATES = none then [keyBal] else [])

/-- `df[name]` for one row: value under the first header equal to `name`. -/
def cellAt (t : Table) (name : PyStr) (row : List Cell) : Cell :=
  row.getD (t.headers.indexOf name) Cell.missing

/-- Transaction Type of one row: `"INV" if pd.notna(v) and v > 0 else "CRD"`. -/
def ttypeOf (b : Option ℚ) : PyStr :=
  match b with
  | some v => if 0 < v then ("INV").data else ("CRD").data
  | none => ("CRD").data

/-- One output row, built from one input row and its normalised balance. -/
def mkOutRow (fb : PyStr → Option Date) (t : Table) (cc dc ec : PyStr)
    (b : Option ℚ) (row : List Cell) : OutRow :=
  { debtorRef := debtorRefOf (cellAt t cc row)
  , ttype := ttypeOf b
  , docNumber := pyStrip (cellStr (cellAt t dc row))
  , docDate := formatDateCell fb (cellAt t ec row)
  , docBalance := b.map round2 }

/-- `process_dataframe(df)` (src/app.py lines 86-132). The five output
columns are the five `OutRow` fields in the required order, so the final
`out[REQUIRED_OUTPUT_ORDER]` reindexing is the identity here. A detection
failure raises `ValueError` (the spec's `MissingColumnsError`), modelled
as `Except.error` carrying the message. -/
def process_dataframe (fb : PyStr → Option Date) (t : Table) :
    Except PyStr (OutTable × Diag) :=
  match pick_column t.headers CUST_ID_COL_CANDIDATES,
        pick_column t.headers TRANS_NO_COL_CANDIDATES,
        pick_column t.headers DATE_COL_CANDIDATES,
        pick_column t.headers BALANCE_COL_CANDIDATES with
  | some cc, some dc, some ec, some bc =>
    let pairs := t.rows.map (fun row =>
      (mkOutRow fb t cc dc ec (to_numeric_value (cellAt t bc row)) row,
       to_numeric_value (cellAt t bc row)))
    let kept := pairs.filter (fun p => decide ((p.2).getD 0 ≠ 0))
    Except.ok (⟨kept.map Prod.fst⟩,
               ⟨some cc, some dc, some ec, some bc, t.rows.length - kept.length⟩)
  | _, _, _, _ => Except.error (msgHead ++ joinComma (missingKeys t))

deriving instance DecidableEq for Except

/-! ### Concrete tables used by the witnesses -/

def fb0 : PyStr → Option Date := fun _ => none

def hCust : PyStr := ("customer_id").data
def hDocno : PyStr := ("transaction_number").data
def hDate : PyStr := ("date").data
def hBal : PyStr := ("balance").data

def t1 : Table :=
  ⟨[hCust, hDocno, hDate, hBal],
   [[Cell.str ("CUST000123456").data, Cell.missing,
     Cell.str ("07/03/2024").data, Cell.str ("100").data],
    [Cell.str ("AB12").data, Cell.str (" TX2 ").data,
     Cell.str ("bogus").data, Cell.str ("0").data]]⟩

def outRow1 : OutRow :=
  ⟨("123456").data, ("INV").data, ("nan").data, ("07/03/2024").data, some 100⟩

def out1 : OutTable := ⟨[outRow1]⟩

def diag1 : Diag := ⟨some hCust, some hDocno, some hDate, some hBal, 1⟩

def t9 : Table :=
  ⟨[hCust, hDocno, hDate, hBal],
   [[Cell.str ("C1").data, Cell.str ("T").data,
     Cell.str ("01/01/2024").data, Cell.str ("0.004").data]]⟩

def out9 : OutTable :=
  ⟨[⟨[], ("INV").data, ("T").data, ("01/01/2024").data, some 0⟩]⟩

def diag9 : Diag := ⟨some hCust, some hDocno, some hDate, some hBal, 0⟩

def tM : Table := ⟨[hCust], []⟩

/-! ## Helper lemmas -/

theorem mem_of_getLast_some {α : Type} (l : List α) (a : α) (h : l.getLast? = some a) : a ∈ l := by
  cases l with
  | nil => simp at h
  | cons x xs =>
    rw [List.getLast?_eq_getLast (x :: xs) (by simp)] at h
    have h2 : (x :: xs).getLast (by simp) = a := by injection h
    rw [Eq.symm h2]
    exact List.getLast_mem _

theorem getLast_isSome_iff {α : Type} (l : List α) : l.getLast?.isSome = true ↔ l ≠ [] := by
  cases l with
  | nil => simp
  | cons x xs =>
    rw [List.getLast?_eq_getLast (x :: xs) (by simp)]
    simp

theorem filter_ne_nil_iff_any {α : Type} (p : α → Bool) (l : List α) :
    l.filter p ≠ [] ↔ l.any p = true := by
  rw [ne_eq, List.filter_eq_nil_iff, List.any_eq_true]
  push_neg
  constructor
  · intro ⟨a, ha, hp⟩; exact ⟨a, ha, hp⟩
  · intro ⟨a, ha, hp⟩; exact ⟨a, ha, hp⟩

theorem findSome_first {α β : Type} (f : α → Option β) (p : α → Bool)
    (hp : ∀ a, (f a).isSome = p a) :
    ∀ (l : List α) (a : α), l.find? p = some a → l.findSome? f = f a := by
  intro l
  induction l with
  | nil => intro a h; simp at h
  | cons x xs ih =>
    intro a h
    by_cases hx : p x = true
    · rw [List.find?_cons_of_pos _ hx] at h
      have hax : x = a := by injection h
      subst hax
      have hfx : (f x).isSome = true := by rw [hp x]; exact hx
      rw [List.findSome?_cons]
      cases hv : f x with
      | none => rw [hv] at hfx; simp at hfx
      | some v => simp
    · rw [List.find?_cons_of_neg _ hx] at h
      have hfx : (f x).isSome = false := by rw [hp x]; exact Bool.of_not_eq_true hx
      rw [List.findSome?_cons]
      cases hv : f x with
      | none => exact ih a h
      | some v => rw [hv] at hfx; simp at hfx

theorem findSome_all_none {α β : Type} (f : α → Option β) (p : α → Bool)
    (hp : ∀ a, (f a).isSome = p a) :
    ∀ (l : List α), l.find? p = none → l.findSome? f = none := by
  intro l
  induction l with
  | nil => intro h; simp
  | cons x xs ih =>
    intro h
    rw [List.find?_eq_none] at h
    have hx : ¬ p x = true := h x (by simp)
    have hfx : (f x).isSome = false := by rw [hp x]; exact Bool.of_not_eq_true hx
    rw [List.findSome?_cons]
    cases hv : f x with
    | none =>
      apply ih
      rw [List.find?_eq_none]
      intro a ha
      exact h a (by simp [ha])
    | some v => rw [hv] at hfx; simp at hfx

theorem lowerMapGet_isSome_eq (cols : List PyStr) (cand : PyStr) :
    (lowerMapGet cols (normKey cand)).isSome =
      cols.any (fun c => decide (normKey c = normKey cand)) := by
  unfold lowerMapGet
  rw [Bool.eq_iff_iff, getLast_isSome_iff, filter_ne_nil_iff_any]

theorem mem_filter_of_getLast (cols : List PyStr) (key h : PyStr)
    (hh : (cols.filter (fun c => decide (normKey c = key))).getLast? = some h) :
    h ∈ cols ∧ normKey h = key := by
  have hm := mem_of_getLast_some _ _ hh
  rw [List.mem_filter] at hm
  exact ⟨hm.1, of_decide_eq_true hm.2⟩

/-- C1: column detection follows the two-phase algorithm: when some
candidate has an exact normalised match among the headers, the result is
an original header whose normalised form equals that of the first such
candidate in list order (exact match takes precedence over substring
matching and never returns the alias string itself); otherwise the result
is the first header in table order whose space-stripped lower-cased form
contains some candidate's space-stripped lower-cased form, and absent when
no header qualifies. -/
theorem claim1_pick_column_two_phase (cols cands : List PyStr) :
    (∀ cand, cands.find? (fun k => cols.any (fun c => decide (normKey c = normKey k))) = some cand →
       ∃ h, h ∈ cols ∧ normKey h = normKey cand ∧ pick_column cols cands = some h) ∧
    (cands.find? (fun k => cols.any (fun c => decide (normKey c = normKey k))) = none →
       pick_column cols cands =
         cols.find? (fun c => cands.any (fun cand => containsSub (normSub cand) (normSub c)))) := by
  constructor
  · intro cand hfind
    have hs := findSome_first (fun k => lowerMapGet cols (normKey k))
      (fun k => cols.any (fun c => decide (normKey c = normKey k)))
      (fun k => lowerMapGet_isSome_eq cols k) cands cand hfind
    have hp : cols.any (fun c => decide (normKey c = normKey cand)) = true := by
      have := List.find?_some hfind
      simpa using this
    have hsome : (lowerMapGet cols (normKey cand)).isSome = true := by
      rw [lowerMapGet_isSome_eq]; exact hp
    cases hv : lowerMapGet cols (normKey cand) with
    | none => rw [hv] at hsome; simp at hsome
    | some h =>
      have hmem := mem_filter_of_getLast cols (normKey cand) h hv
      refine ⟨h, hmem.1, hmem.2, ?_⟩
      unfold pick_column
      unfold exactPhase
      rw [hs]
      show (match lowerMapGet cols (normKey cand) with
            | some h => some h
            | none => substrPhase cols cands) = some h
      rw [hv]
  · intro hfind
    have hs := findSome_all_none (fun k => lowerMapGet cols (normKey k))
      (fun k => cols.any (fun c => decide (normKey c = normKey k)))
      (fun k => lowerMapGet_isSome_eq cols k) cands hfind
    unfold pick_column
    unfold exactPhase
    rw [hs]
    rfl

/-- C10: when the first candidate with an exact normalised match is
found, the exact phase returns the LAST header in table order sharing
that normalised form (the dict comprehension keeps the latest
occurrence), not the first. -/
theorem claim10_exact_match_keeps_last (cols cands : List PyStr) (cand : PyStr)
    (hfind : cands.find? (fun k => cols.any (fun c => decide (normKey c = normKey k))) = some cand) :
    pick_column cols cands =
      (cols.filter (fun c => decide (normKey c = normKey cand))).getLast? := by
  have hs := findSome_first (fun k => lowerMapGet cols (normKey k))
    (fun k => cols.any (fun c => decide (normKey c = normKey k)))
    (fun k => lowerMapGet_isSome_eq cols k) cands cand hfind
  have hp : cols.any (fun c => decide (normKey c = normKey cand)) = true := by
    have := List.find?_some hfind
    simpa using this
  have hsome : (lowerMapGet cols (normKey cand)).isSome = true := by
    rw [lowerMapGet_isSome_eq]; exact hp
  cases hv : lowerMapGet cols (normKey cand) with
  | none => rw [hv] at hsome; simp at hsome
  | some h =>
    unfold pick_column
    unfold exactPhase
    rw [hs]
    show (match lowerMapGet cols (normKey cand) with
          | some h => some h
          | none => substrPhase cols cands) =
      (cols.filter (fun c => decide (normKey c = normKey cand))).getLast?
    rw [hv]
    unfold lowerMapGet at hv
    exact hv.symm

theorem claim1_witness :
    ∃ h, h ∈ [(" Customer_ID ").data, ("other").data] ∧
      normKey h = normKey ("customer_id").data ∧
      pick_column [(" Customer_ID ").data, ("other").data] [("customer_id").data] = some h :=
  (claim1_pick_column_two_phase [(" Customer_ID ").data, ("other").data]
    [("customer_id").data]).1 (("customer_id").data) (by decide)

theorem claim10_witness :
    pick_column [("Date ").data, ("DATE").data] [("date").data] =
      ([("Date ").data, ("DATE").data].filter
        (fun c => decide (normKey c = normKey ("date").data))).getLast? ∧
    pick_column [("Date ").data, ("DATE").data] [("date").data] = some ("DATE").data :=
  ⟨claim10_exact_match_keeps_last [("Date ").data, ("DATE").data] [("date").data]
    (("date").data) (by decide), by decide⟩

/-- C3: the numeric normaliser yields no value on missing cells and on
cells that trim to the empty string; otherwise it removes all commas and
spaces, negates a parenthesised remainder, and parses it as a float (the
lenient fallback coercion yields no value exactly when that parse also
fails); in particular "(1,234.50)" gives -1234.50, "1 234,x" gives no
value, "" gives no value, and "100" gives 100.0. -/
theorem claim3_to_numeric_value :
    to_numeric_value Cell.missing = none ∧
    (∀ s, pyStrip s = [] → to_numeric_value (Cell.str s) = none) ∧
    (∀ s, pyStrip s ≠ [] →
      to_numeric_value (Cell.str s) =
        parseFloat (parenSigned (removeChar ' ' (removeChar ',' s)))) ∧
    to_numeric_value (Cell.str ("(1,234.50)").data) = some (-1234.5 : ℚ) ∧
    to_numeric_value (Cell.str ("1 234,x").data) = none ∧
    to_numeric_value (Cell.str ("").data) = none ∧
    to_numeric_value (Cell.str ("100").data) = some (100 : ℚ) := by
  have hex : to_numeric_value (Cell.str ("(1,234.50)").data) = some (mkRat (-2469) 2) := by
    decide
  have hval : (mkRat (-2469) 2 : ℚ) = (-1234.5 : ℚ) := by
    rw [Rat.mkRat_eq_div]
    norm_num
  refine ⟨rfl, ?_, ?_, by rw [hex, hval], by decide, by decide, by decide⟩
  · intro s h
    simp only [to_numeric_value]
    rw [if_pos h]
  · intro s h
    simp only [to_numeric_value, parenSigned, lenientNumeric]
    rw [if_neg h]
    cases hpf : parseFloat (if (removeChar ' ' (removeChar ',' s)).head? = some '(' ∧
        (removeChar ' ' (removeChar ',' s)).getLast? = some ')' then
        '-' :: ((removeChar ' ' (removeChar ',' s)).drop 1).dropLast
      else removeChar ' ' (removeChar ',' s)) with
    | none => simp [hpf]
    | some q => simp [hpf]

theorem claim3_witness : to_numeric_value (Cell.str (" ").data) = none :=
  claim3_to_numeric_value.2.1 ((" ").data) (by decide)

/-- C2: the pipeline fails if and only if at least one of the four
logical fields is not detected among the headers, and the error message
is "Missing required columns: " followed by the human-readable keys of
ALL absent fields, joined by ", "; no output table is produced on
failure (the result is an error, never a table). -/
theorem claim2_missing_columns (fb : PyStr → Option Date) (t : Table) :
    ((∃ e, process_dataframe fb t = Except.error e) ↔
      (pick_column t.headers CUST_ID_COL_CANDIDATES = none ∨
       pick_column t.headers TRANS_NO_COL_CANDIDATES = none ∨
       pick_column t.headers DATE_COL_CANDIDATES = none ∨
       pick_column t.headers BALANCE_COL_CANDIDATES = none)) ∧
    (∀ e, process_dataframe fb t = Except.error e →
      e = msgHead ++ joinComma (absentKeys t)) := by
  cases hc : pick_column t.headers CUST_ID_COL_CANDIDATES <;>
    cases hd : pick_column t.headers TRANS_NO_COL_CANDIDATES <;>
    cases he : pick_column t.headers DATE_COL_CANDIDATES <;>
    cases hb : pick_column t.headers BALANCE_COL_CANDIDATES <;>
    simp [process_dataframe, hc, hd, he, hb, missingKeys, detectedPairs, absentKeys]

theorem claim2_witness : ∃ e, process_dataframe fb0 tM = Except.error e :=
  (claim2_missing_columns fb0 tM).1.mpr (by decide)

theorem process_ok_inv (fb : PyStr → Option Date) (t : Table) (out : OutTable) (diag : Diag)
    (hok : process_dataframe fb t = Except.ok (out, diag)) :
    ∃ cc dc ec bc,
      pick_column t.headers CUST_ID_COL_CANDIDATES = some cc ∧
      pick_column t.headers TRANS_NO_COL_CANDIDATES = some dc ∧
      pick_column t.headers DATE_COL_CANDIDATES = some ec ∧
      pick_column t.headers BALANCE_COL_CANDIDATES = some bc ∧
      diag = ⟨some cc, some dc, some ec, some bc,
        t.rows.length -
          ((t.rows.map (fun row =>
            (mkOutRow fb t cc dc ec (to_numeric_value (cellAt t bc row)) row,
             to_numeric_value (cellAt t bc row)))).filter
              (fun p => decide ((p.2).getD 0 ≠ 0))).length⟩ ∧
      out.rows = (((t.rows.map (fun row =>
            (mkOutRow fb t cc dc ec (to_numeric_value (cellAt t bc row)) row,
             to_numeric_value (cellAt t bc row)))).filter
              (fun p => decide ((p.2).getD 0 ≠ 0))).map Prod.fst) := by
  cases hc : pick_column t.headers CUST_ID_COL_CANDIDATES with
  | none => rw [process_dataframe, hc] at hok; simp at hok
  | some cc =>
  cases hd : pick_column t.headers TRANS_NO_COL_CANDIDATES with
  | none => rw [process_dataframe, hc, hd] at hok; simp at hok
  | some dc =>
  cases he : pick_column t.headers DATE_COL_CANDIDATES with
  | none => rw [process_dataframe, hc, hd, he] at hok; simp at hok
  | some ec =>
  cases hb : pick_column t.headers BALANCE_COL_CANDIDATES with
  | none => rw [process_dataframe, hc, hd, he, hb] at hok; simp at hok
  | some bc =>
  rw [process_dataframe, hc, hd, he, hb] at hok
  simp only [Except.ok.injEq, Prod.mk.injEq] at hok
  refine ⟨cc, dc, ec, bc, rfl, rfl, rfl, rfl, hok.2.symm, ?_⟩
  rw [Eq.symm hok.1]

theorem pairs_filter_map {α β γ : Type} (rows : List α) (h : α → β) (bal : α → γ)
    (q : γ → Bool) :
    ((rows.map (fun r => (h r, bal r))).filter (fun p => q p.2)).map Prod.fst
      = (rows.filter (fun r => q (bal r))).map h := by
  induction rows with
  | nil => rfl
  | cons x xs ih =>
    cases hx : q (bal x) <;> simp [hx, ih]

theorem pairs_filter_length {α β γ : Type} (rows : List α) (h : α → β) (bal : α → γ)
    (q : γ → Bool) :
    ((rows.map (fun r => (h r, bal r))).filter (fun p => q p.2)).length
      = (rows.filter (fun r => q (bal r))).length := by
  have := pairs_filter_map rows h bal q
  have h2 := congrArg List.length this
  rw [List.length_map, List.length_map] at h2
  exact h2

theorem length_filter_not_add {α : Type} (p : α → Bool) (l : List α) :
    (l.filter p).length + (l.filter (fun a => ! p a)).length = l.length := by
  induction l with
  | nil => rfl
  | cons x xs ih =>
    cases hx : p x <;> simp [hx] <;> omega

/-- C5: for every output row there is a source row whose normalised
balance `b` explains it: the Document Balance is `b` rounded to two
decimals, the Transaction Type is "INV" exactly when `b` is present and
strictly positive, and is "CRD" in every other case. -/
theorem claim5_transaction_type (fb : PyStr → Option Date) (t : Table)
    (out : OutTable) (diag : Diag)
    (hok : process_dataframe fb t = Except.ok (out, diag))
    (bc : PyStr) (hbc : diag.balCol = some bc)
    (r : OutRow) (hr : r ∈ out.rows) :
    ∃ row, row ∈ t.rows ∧
      r.docBalance = (to_numeric_value (cellAt t bc row)).map round2 ∧
      (r.ttype = ("INV").data ↔
        ∃ v, to_numeric_value (cellAt t bc row) = some v ∧ 0 < v) ∧
      ((¬ ∃ v, to_numeric_value (cellAt t bc row) = some v ∧ 0 < v) →
        r.ttype = ("CRD").data) := by
  obtain ⟨cc, dc, ec, bc', h1, h2, h3, h4, hdiag, hout⟩ := process_ok_inv fb t out diag hok
  have hbc2 : bc' = bc := by rw [hdiag] at hbc; injection hbc
  subst hbc2
  rw [hout] at hr
  rw [List.mem_map] at hr
  obtain ⟨pr, hpr, hfst⟩ := hr
  rw [List.mem_filter] at hpr
  obtain ⟨hpairs, hkeep⟩ := hpr
  rw [List.mem_map] at hpairs
  obtain ⟨row, hrow, hpr_eq⟩ := hpairs
  refine ⟨row, hrow, ?_, ?_, ?_⟩
  · rw [Eq.symm hfst, Eq.symm hpr_eq]
    rfl
  · rw [Eq.symm hfst, Eq.symm hpr_eq]
    show (ttypeOf (to_numeric_value (cellAt t bc' row)) = ("INV").data ↔ _)
    cases hv : to_numeric_value (cellAt t bc' row) with
    | none => simp [ttypeOf]
    | some v =>
      by_cases hpos : 0 < v
      · simp [ttypeOf, hpos]
      · simp [ttypeOf, hpos]
  · rw [Eq.symm hfst, Eq.symm hpr_eq]
    intro hneg
    show ttypeOf (to_numeric_value (cellAt t bc' row)) = ("CRD").data
    cases hv : to_numeric_value (cellAt t bc' row) with
    | none => rfl
    | some v =>
      by_cases hpos : 0 < v
      · exact absurd ⟨v, hv, hpos⟩ hneg
      · simp [ttypeOf, hpos]

theorem claim5_witness :
    ∃ row, row ∈ t1.rows ∧
      outRow1.docBalance = (to_numeric_value (cellAt t1 hBal row)).map round2 ∧
      (outRow1.ttype = ("INV").data ↔
        ∃ v, to_numeric_value (cellAt t1 hBal row) = some v ∧ 0 < v) ∧
      ((¬ ∃ v, to_numeric_value (cellAt t1 hBal row) = some v ∧ 0 < v) →
        outRow1.ttype = ("CRD").data) :=
  claim5_transaction_type fb0 t1 out1 diag1 (by decide) hBal rfl outRow1 (by decide)

/-- C7: on success the output consists of exactly the input rows whose
normalised balance (missing treated as 0) is nonzero, transformed in
order with one output row per surviving input row; the removed count in
the diagnostics is exactly the number of excluded rows, so output rows
plus removed rows equals input rows. -/
theorem claim7_row_filtering (fb : PyStr → Option Date) (t : Table)
    (out : OutTable) (diag : Diag)
    (hok : process_dataframe fb t = Except.ok (out, diag))
    (cc dc ec bc : PyStr)
    (hc1 : diag.custCol = some cc) (hc2 : diag.docnoCol = some dc)
    (hc3 : diag.dateCol = some ec) (hc4 : diag.balCol = some bc) :
    out.rows.length + diag.removed = t.rows.length ∧
    out.rows = (t.rows.filter
        (fun row => decide ((to_numeric_value (cellAt t bc row)).getD 0 ≠ 0))).map
        (fun row => mkOutRow fb t cc dc ec (to_numeric_value (cellAt t bc row)) row) ∧
    diag.removed = (t.rows.filter
        (fun row => decide ((to_numeric_value (cellAt t bc row)).getD 0 = 0))).length := by
  obtain ⟨cc', dc', ec', bc', h1, h2, h3, h4, hdiag, hout⟩ := process_ok_inv fb t out diag hok
  have e1 : cc' = cc := by rw [hdiag] at hc1; injection hc1
  have e2 : dc' = dc := by rw [hdiag] at hc2; injection hc2
  have e3 : ec' = ec := by rw [hdiag] at hc3; injection hc3
  have e4 : bc' = bc := by rw [hdiag] at hc4; injection hc4
  subst e1; subst e2; subst e3; subst e4
  have hmap : out.rows = (t.rows.filter
      (fun row => decide ((to_numeric_value (cellAt t bc' row)).getD 0 ≠ 0))).map
      (fun row => mkOutRow fb t cc' dc' ec' (to_numeric_value (cellAt t bc' row)) row) :=
    hout.trans (pairs_filter_map t.rows
      (fun row => mkOutRow fb t cc' dc' ec' (to_numeric_value (cellAt t bc' row)) row)
      (fun row => to_numeric_value (cellAt t bc' row))
      (fun b => decide (b.getD 0 ≠ 0)))
  have hkeptlen : ((t.rows.map (fun row =>
        (mkOutRow fb t cc' dc' ec' (to_numeric_value (cellAt t bc' row)) row,
         to_numeric_value (cellAt t bc' row)))).filter
          (fun p => decide ((p.2).getD 0 ≠ 0))).length
      = (t.rows.filter
          (fun row => decide ((to_numeric_value (cellAt t bc' row)).getD 0 ≠ 0))).length :=
    pairs_filter_length t.rows
      (fun row => mkOutRow fb t cc' dc' ec' (to_numeric_value (cellAt t bc' row)) row)
      (fun row => to_numeric_value (cellAt t bc' row))
      (fun b => decide (b.getD 0 ≠ 0))
  have hremoved : diag.removed = t.rows.length - (t.rows.filter
      (fun row => decide ((to_numeric_value (cellAt t bc' row)).getD 0 ≠ 0))).length := by
    rw [hdiag]
    show t.rows.length - _ = _
    rw [hkeptlen]
  have hcompl : (t.rows.filter
        (fun row => decide ((to_numeric_value (cellAt t bc' row)).getD 0 ≠ 0))).length +
      (t.rows.filter
        (fun row => decide ((to_numeric_value (cellAt t bc' row)).getD 0 = 0))).length
      = t.rows.length := by
    have hcon : (t.rows.filter (fun row =>
        ! decide ((to_numeric_value (cellAt t bc' row)).getD 0 ≠ 0))) =
        (t.rows.filter (fun row =>
          decide ((to_numeric_value (cellAt t bc' row)).getD 0 = 0))) := by
      apply List.filter_congr
      intro a ha
      rw [decide_not, Bool.not_not]
    have := length_filter_not_add
      (fun row => decide ((to_numeric_value (cellAt t bc' row)).getD 0 ≠ 0)) t.rows
    rw [hcon] at this
    exact this
  have houtlen : out.rows.length = (t.rows.filter
      (fun row => decide ((to_numeric_value (cellAt t bc' row)).getD 0 ≠ 0))).length := by
    rw [hmap, List.length_map]
  refine ⟨?_, hmap, ?_⟩
  · omega
  · omega

theorem claim7_witness :
    out1.rows.length + diag1.removed = t1.rows.length ∧
    out1.rows = (t1.rows.filter
        (fun row => decide ((to_numeric_value (cellAt t1 hBal row)).getD 0 ≠ 0))).map
        (fun row => mkOutRow fb0 t1 hCust hDocno hDate (to_numeric_value (cellAt t1 hBal row)) row) ∧
    diag1.removed = (t1.rows.filter
        (fun row => decide ((to_numeric_value (cellAt t1 hBal row)).getD 0 = 0))).length :=
  claim7_row_filtering fb0 t1 out1 diag1 (by decide) hCust hDocno hDate hBal rfl rfl rfl rfl

/-- C8: for every output row there is a source row it was built from, its
Document Number is the trimmed text form of that row's
transaction_number cell, and when that cell is missing the Document
Number is the literal string "nan" (the text form of the missing
marker), not the empty string. -/
theorem claim8_missing_document_number (fb : PyStr → Option Date) (t : Table)
    (out : OutTable) (diag : Diag)
    (hok : process_dataframe fb t = Except.ok (out, diag))
    (dc : PyStr) (hdc : diag.docnoCol = some dc)
    (r : OutRow) (hr : r ∈ out.rows) :
    ∃ row, row ∈ t.rows ∧
      r.docNumber = pyStrip (cellStr (cellAt t dc row)) ∧
      (cellAt t dc row = Cell.missing →
        r.docNumber = ('n' :: 'a' :: 'n' :: []) ∧ r.docNumber ≠ []) := by
  obtain ⟨cc', dc', ec', bc', h1, h2, h3, h4, hdiag, hout⟩ := process_ok_inv fb t out diag hok
  have e2 : dc' = dc := by rw [hdiag] at hdc; injection hdc
  subst e2
  rw [hout] at hr
  rw [List.mem_map] at hr
  obtain ⟨pr, hpr, hfst⟩ := hr
  rw [List.mem_filter] at hpr
  obtain ⟨hpairs, hkeep⟩ := hpr
  rw [List.mem_map] at hpairs
  obtain ⟨row, hrow, hpr_eq⟩ := hpairs
  have hdoc : r.docNumber = pyStrip (cellStr (cellAt t dc' row)) := by
    rw [Eq.symm hfst, Eq.symm hpr_eq]
    rfl
  refine ⟨row, hrow, hdoc, ?_⟩
  intro hmiss
  rw [hdoc, hmiss]
  constructor
  · decide
  · decide

theorem claim8_witness :
    ∃ row, row ∈ t1.rows ∧
      outRow1.docNumber = pyStrip (cellStr (cellAt t1 hDocno row)) ∧
      (cellAt t1 hDocno row = Cell.missing →
        outRow1.docNumber = ('n' :: 'a' :: 'n' :: []) ∧ outRow1.docNumber ≠ []) :=
  claim8_missing_document_number fb0 t1 out1 diag1 (by decide) hDocno rfl outRow1 (by decide)

/-- C9: row filtering is decided on the unrounded normalised balance: on
a table whose single row has balance "0.004" the pipeline keeps the row
(0.004 is not 0), yet its Document Balance, rounded to two decimals, is
exactly 0; the output can therefore display a zero balance even though
zero-balance rows are filtered out. -/
theorem claim9_unrounded_filtering :
    to_numeric_value (Cell.str (("0.004").data)) = some (mkRat 1 250) ∧
    mkRat 1 250 ≠ (0 : ℚ) ∧
    round2 (mkRat 1 250) = (0 : ℚ) ∧
    process_dataframe fb0 t9 = Except.ok (out9, diag9) ∧
    out9.rows.length = 1 ∧
    out9.rows.map (fun r => r.docBalance) = [some (0 : ℚ)] ∧
    diag9.removed = 0 := by
  refine ⟨by decide, by decide, by decide, by decide, rfl, by decide, rfl⟩

/-- C6 fails as stated: Python's `$` anchor also matches just before a
trailing newline, so the customer id "CUST000123456\n" does NOT end in
six digits, yet the code extracts "123456" instead of the empty string
the claim requires. -/
theorem claim6_counterexample :
    endsSixDigits (("CUST000123456\n").data) = false ∧
    debtorRefOf (Cell.str (("CUST000123456\n").data)) = ("123456").data ∧
    ("123456").data ≠ ([] : PyStr) := by
  refine ⟨by decide, by decide, by decide⟩

theorem debtorRefOf_eq_spec (c : Cell) : debtorRefOf c = debtorRefSpec (cellStr c) := by
  unfold debtorRefOf debtorRefSpec reSearchSixEnd
  by_cases h1 : endsSixDigits (cellStr c) = true
  · rw [if_pos h1, if_pos h1]
    rfl
  · rw [if_neg h1, if_neg h1]
    by_cases h2 : (cellStr c).getLast? = some '\n'
    · rw [if_pos h2]
      by_cases h3 : endsSixDigits (cellStr c).dropLast = true
      · rw [if_pos h3, if_pos (And.intro h2 h3)]
        rfl
      · rw [if_neg h3, if_neg (fun hc => h3 hc.2)]
        rfl
    · rw [if_neg h2, if_neg (fun hc => h2 hc.1)]
      rfl

/-- C6 (amended): for every output row there is a source row it was
built from, and its Debtor Reference is the last six digits of the text
form of that row's customer_id cell when that string ends in at least
six digits - also accepting the six digits just before one trailing
newline (Python `$` semantics) - and the empty string otherwise. -/
theorem claim6_amended_debtor_reference (fb : PyStr → Option Date) (t : Table)
    (out : OutTable) (diag : Diag)
    (hok : process_dataframe fb t = Except.ok (out, diag))
    (cc : PyStr) (hcc : diag.custCol = some cc)
    (r : OutRow) (hr : r ∈ out.rows) :
    ∃ row, row ∈ t.rows ∧
      r.debtorRef = debtorRefSpec (cellStr (cellAt t cc row)) := by
  obtain ⟨cc', dc', ec', bc', h1, h2, h3, h4, hdiag, hout⟩ := process_ok_inv fb t out diag hok
  have e1 : cc' = cc := by rw [hdiag] at hcc; injection hcc
  subst e1
  rw [hout] at hr
  rw [List.mem_map] at hr
  obtain ⟨pr, hpr, hfst⟩ := hr
  rw [List.mem_filter] at hpr
  obtain ⟨hpairs, hkeep⟩ := hpr
  rw [List.mem_map] at hpairs
  obtain ⟨row, hrow, hpr_eq⟩ := hpairs
  refine ⟨row, hrow, ?_⟩
  rw [Eq.symm hfst, Eq.symm hpr_eq]
  exact debtorRefOf_eq_spec (cellAt t cc' row)

theorem claim6_amended_witness :
    ∃ row, row ∈ t1.rows ∧
      outRow1.debtorRef = debtorRefSpec (cellStr (cellAt t1 hCust row)) :=
  claim6_amended_debtor_reference fb0 t1 out1 diag1 (by decide) hCust rfl outRow1 (by decide)

/-! ## Date round trip (C4) -/

theorem digitChar_isDigit (k : ℕ) (h : k < 10) : (Nat.digitChar k).isDigit = true := by
  interval_cases k <;> decide

theorem dval_digitChar (k : ℕ) (h : k < 10) : dval (Nat.digitChar k) = k := by
  interval_cases k <;> decide

theorem digitChar_ne_nondigit (k : ℕ) (h : k < 10) (c : Char) (hc : c.isDigit = false) :
    Nat.digitChar k ≠ c := by
  intro e
  rw [Eq.symm e] at hc
  rw [digitChar_isDigit k h] at hc
  cases hc

theorem readNum2_pad2 (hi n : ℕ) (tail : PyStr) (h1 : 1 ≤ n) (h2 : n ≤ hi) (h3 : n ≤ 99) :
    readNum2 hi (pad2 n ++ tail) = some (n, tail) := by
  have ha : n / 10 % 10 < 10 := Nat.mod_lt _ (by omega)
  have hb : n % 10 < 10 := Nat.mod_lt _ (by omega)
  have hv : 10 * dval (Nat.digitChar (n / 10 % 10)) + dval (Nat.digitChar (n % 10)) = n := by
    rw [dval_digitChar _ ha, dval_digitChar _ hb]
    omega
  show readNum2 hi (Nat.digitChar (n / 10 % 10) :: Nat.digitChar (n % 10) :: tail) = some (n, tail)
  rw [readNum2]
  rw [if_pos (digitChar_isDigit _ ha)]
  rw [if_pos (And.intro (digitChar_isDigit _ hb) (by rw [hv]; exact And.intro h1 h2))]
  rw [hv]

theorem readNum2_pad2_high (n : ℕ) (tail : PyStr) (h1 : 13 ≤ n) (h2 : n ≤ 31) :
    readNum2 12 (pad2 n ++ tail) = some (n / 10, Nat.digitChar (n % 10) :: tail) := by
  have ha : n / 10 % 10 < 10 := Nat.mod_lt _ (by omega)
  have hb : n % 10 < 10 := Nat.mod_lt _ (by omega)
  have hv : 10 * dval (Nat.digitChar (n / 10 % 10)) + dval (Nat.digitChar (n % 10)) = n := by
    rw [dval_digitChar _ ha, dval_digitChar _ hb]
    omega
  have hda : dval (Nat.digitChar (n / 10 % 10)) = n / 10 := by
    rw [dval_digitChar _ ha]
    omega
  show readNum2 12 (Nat.digitChar (n / 10 % 10) :: Nat.digitChar (n % 10) :: tail) =
    some (n / 10, Nat.digitChar (n % 10) :: tail)
  rw [readNum2]
  rw [if_pos (digitChar_isDigit _ ha)]
  rw [if_neg (by rw [hv]; intro hcon; omega)]
  rw [if_pos (by rw [hda]; omega)]
  rw [hda]

theorem read4_pad4 (y : ℕ) (tail : PyStr) (h : y ≤ 9999) :
    read4 (pad4 y ++ tail) = some (y, tail) := by
  have h1 : y / 1000 % 10 < 10 := Nat.mod_lt _ (by omega)
  have h2 : y / 100 % 10 < 10 := Nat.mod_lt _ (by omega)
  have h3 : y / 10 % 10 < 10 := Nat.mod_lt _ (by omega)
  have h4 : y % 10 < 10 := Nat.mod_lt _ (by omega)
  show read4 (Nat.digitChar (y / 1000 % 10) :: Nat.digitChar (y / 100 % 10) ::
    Nat.digitChar (y / 10 % 10) :: Nat.digitChar (y % 10) :: tail) = some (y, tail)
  rw [read4]
  rw [if_pos (And.intro (digitChar_isDigit _ h1) (And.intro (digitChar_isDigit _ h2)
    (And.intro (digitChar_isDigit _ h3) (digitChar_isDigit _ h4))))]
  rw [dval_digitChar _ h1, dval_digitChar _ h2, dval_digitChar _ h3, dval_digitChar _ h4]
  have hy : 1000 * (y / 1000 % 10) + 100 * (y / 100 % 10) + 10 * (y / 10 % 10) + y % 10 = y := by
    omega
  rw [hy]

theorem read4_third_nondigit (a b c x : Char) (tail : PyStr) (hc : c.isDigit = false) :
    read4 (a :: b :: c :: x :: tail) = none := by
  rw [read4]
  rw [if_neg]
  intro hcon
  rw [hc] at hcon
  exact Bool.false_ne_true hcon.2.2.1

/-- Reading `%d`/`%m` against a four-digit block: either it fails, or the
remainder still starts with a digit. -/
theorem readNum2_pad4 (hi y : ℕ) (tail : PyStr) :
    readNum2 hi (pad4 y ++ tail) = none ∨
    ∃ v h2 r2, readNum2 hi (pad4 y ++ tail) = some (v, h2 :: r2) ∧ h2.isDigit = true := by
  have h1 : y / 1000 % 10 < 10 := Nat.mod_lt _ (by omega)
  have h2 : y / 100 % 10 < 10 := Nat.mod_lt _ (by omega)
  have h3 : y / 10 % 10 < 10 := Nat.mod_lt _ (by omega)
  have e : pad4 y ++ tail = Nat.digitChar (y / 1000 % 10) :: Nat.digitChar (y / 100 % 10) ::
      (Nat.digitChar (y / 10 % 10) :: Nat.digitChar (y % 10) :: tail) := rfl
  rw [e, readNum2]
  rw [if_pos (digitChar_isDigit _ h1)]
  by_cases hc1 : (Nat.digitChar (y / 100 % 10)).isDigit = true ∧
      1 ≤ 10 * dval (Nat.digitChar (y / 1000 % 10)) + dval (Nat.digitChar (y / 100 % 10)) ∧
      10 * dval (Nat.digitChar (y / 1000 % 10)) + dval (Nat.digitChar (y / 100 % 10)) ≤ hi
  · right
    rw [if_pos hc1]
    exact ⟨_, _, _, rfl, digitChar_isDigit _ h3⟩
  · rw [if_neg hc1]
    by_cases hc2 : 1 ≤ dval (Nat.digitChar (y / 1000 % 10)) ∧
        dval (Nat.digitChar (y / 1000 % 10)) ≤ 9
    · right
      rw [if_pos hc2]
      exact ⟨_, _, _, rfl, digitChar_isDigit _ h2⟩
    · left
      rw [if_neg hc2]

theorem runFmt_dd (rest : Fmt) (acc : PreDate) (s s2 : PyStr) (v : ℕ)
    (h : readNum2 31 s = some (v, s2)) :
    runFmt (FmtItem.dd :: rest) acc s = runFmt rest { acc with day := v } s2 := by
  rw [runFmt, h]
  rfl

theorem runFmt_mm (rest : Fmt) (acc : PreDate) (s s2 : PyStr) (v : ℕ)
    (h : readNum2 12 s = some (v, s2)) :
    runFmt (FmtItem.mm :: rest) acc s = runFmt rest { acc with month := v } s2 := by
  rw [runFmt, h]
  rfl

theorem runFmt_yyyy (rest : Fmt) (acc : PreDate) (s s2 : PyStr) (v : ℕ)
    (h : read4 s = some (v, s2)) :
    runFmt (FmtItem.yyyy :: rest) acc s = runFmt rest { acc with year := v } s2 := by
  rw [runFmt, h]
  rfl

theorem runFmt_dd_none (rest : Fmt) (acc : PreDate) (s : PyStr) (h : readNum2 31 s = none) :
    runFmt (FmtItem.dd :: rest) acc s = none := by
  rw [runFmt, h]
  rfl

theorem runFmt_mm_none (rest : Fmt) (acc : PreDate) (s : PyStr) (h : readNum2 12 s = none) :
    runFmt (FmtItem.mm :: rest) acc s = none := by
  rw [runFmt, h]
  rfl

theorem runFmt_yyyy_none (rest : Fmt) (acc : PreDate) (s : PyStr) (h : read4 s = none) :
    runFmt (FmtItem.yyyy :: rest) acc s = none := by
  rw [runFmt, h]
  rfl

theorem runFmt_lit (rest : Fmt) (acc : PreDate) (c : Char) (s : PyStr) :
    runFmt (FmtItem.lit c :: rest) acc (c :: s) = runFmt rest acc s := by
  rw [runFmt]
  rw [if_pos rfl]

theorem runFmt_lit_ne (rest : Fmt) (acc : PreDate) (c x : Char) (s : PyStr) (h : x ≠ c) :
    runFmt (FmtItem.lit c :: rest) acc (x :: s) = none := by
  rw [runFmt]
  rw [if_neg h]

theorem runFmt_nil_nil (acc : PreDate) : runFmt [] acc [] = some acc := by
  rw [runFmt]
  rw [if_pos rfl]

theorem daysInMonth_le_31 (y m : ℕ) : daysInMonth y m ≤ 31 := by
  unfold daysInMonth
  split
  · split <;> omega
  · split <;> omega

theorem daysInMonth_ge_28 (y m : ℕ) : 28 ≤ daysInMonth y m := by
  unfold daysInMonth
  split
  · split <;> omega
  · split <;> omega

theorem validDate_bounds (d : Date) (h : validDate d = true) :
    1 ≤ d.year ∧ d.year ≤ 9999 ∧ 1 ≤ d.month ∧ d.month ≤ 12 ∧ 1 ≤ d.day ∧ d.day ≤ 31 := by
  unfold validDate at h
  rw [decide_eq_true_eq] at h
  exact ⟨h.1, h.2.1, h.2.2.1, h.2.2.2.1, h.2.2.2.2.1,
    le_trans h.2.2.2.2.2 (daysInMonth_le_31 d.year d.month)⟩

theorem dropWhile_eq_self_of_no {α : Type} (p : α → Bool) (l : List α)
    (h : ∀ c ∈ l, p c = false) : l.dropWhile p = l := by
  cases l with
  | nil => rfl
  | cons x xs =>
    rw [List.dropWhile_cons_of_neg]
    rw [h x (by simp)]
    exact Bool.false_ne_true

theorem pyStrip_of_nospace (s : PyStr) (h : ∀ c ∈ s, pyIsSpace c = false) : pyStrip s = s := by
  unfold pyStrip
  rw [dropWhile_eq_self_of_no _ _ h]
  rw [dropWhile_eq_self_of_no _ _ (by intro c hc; exact h c (List.mem_reverse.mp hc))]
  exact List.reverse_reverse s

theorem digit_nospace (c : Char) (h : c.isDigit = true) : pyIsSpace c = false := by
  cases hs : pyIsSpace c with
  | false => rfl
  | true =>
    exfalso
    unfold pyIsSpace at hs
    rw [decide_eq_true_eq] at hs
    rcases hs with rfl | rfl | rfl | rfl | rfl | rfl <;> cases h

theorem pad2_nospace (n : ℕ) (c : Char) (h : c ∈ pad2 n) : pyIsSpace c = false := by
  have h1 : n / 10 % 10 < 10 := Nat.mod_lt _ (by omega)
  have h2 : n % 10 < 10 := Nat.mod_lt _ (by omega)
  unfold pad2 at h
  simp only [List.mem_cons, List.not_mem_nil, or_false] at h
  rcases h with rfl | rfl
  · exact digit_nospace _ (digitChar_isDigit _ h1)
  · exact digit_nospace _ (digitChar_isDigit _ h2)

theorem pad4_nospace (n : ℕ) (c : Char) (h : c ∈ pad4 n) : pyIsSpace c = false := by
  have h1 : n / 1000 % 10 < 10 := Nat.mod_lt _ (by omega)
  have h2 : n / 100 % 10 < 10 := Nat.mod_lt _ (by omega)
  have h3 : n / 10 % 10 < 10 := Nat.mod_lt _ (by omega)
  have h4 : n % 10 < 10 := Nat.mod_lt _ (by omega)
  unfold pad4 at h
  simp only [List.mem_cons, List.not_mem_nil, or_false] at h
  rcases h with rfl | rfl | rfl | rfl
  · exact digit_nospace _ (digitChar_isDigit _ h1)
  · exact digit_nospace _ (digitChar_isDigit _ h2)
  · exact digit_nospace _ (digitChar_isDigit _ h3)
  · exact digit_nospace _ (digitChar_isDigit _ h4)

theorem append_nospace (s t : PyStr) (hs : ∀ c ∈ s, pyIsSpace c = false)
    (ht : ∀ c ∈ t, pyIsSpace c = false) : ∀ c ∈ s ++ t, pyIsSpace c = false := by
  intro c hc
  rcases List.mem_append.mp hc with h | h
  · exact hs c h
  · exact ht c h

theorem cons_nospace (x : Char) (t : PyStr) (hx : pyIsSpace x = false)
    (ht : ∀ c ∈ t, pyIsSpace c = false) : ∀ c ∈ x :: t, pyIsSpace c = false := by
  intro c hc
  rcases List.mem_cons.mp hc with rfl | h
  · exact hx
  · exact ht c h

theorem nil_nospace : ∀ c ∈ ([] : PyStr), pyIsSpace c = false := by
  intro c hc
  cases hc

theorem render_shape_DMYslash (d : Date) :
    renderFmt fmtDMYslash d = pad2 d.day ++ '/' :: (pad2 d.month ++ '/' :: (pad4 d.year ++ [])) :=
  rfl

theorem render_shape_DMYdash (d : Date) :
    renderFmt fmtDMYdash d = pad2 d.day ++ '-' :: (pad2 d.month ++ '-' :: (pad4 d.year ++ [])) :=
  rfl

theorem render_shape_YMDdash (d : Date) :
    renderFmt fmtYMDdash d = pad4 d.year ++ '-' :: (pad2 d.month ++ '-' :: (pad2 d.day ++ [])) :=
  rfl

theorem render_shape_MDYslash (d : Date) :
    renderFmt fmtMDYslash d = pad2 d.month ++ '/' :: (pad2 d.day ++ '/' :: (pad4 d.year ++ [])) :=
  rfl

theorem render_shape_YMDslash (d : Date) :
    renderFmt fmtYMDslash d = pad4 d.year ++ '/' :: (pad2 d.month ++ '/' :: (pad2 d.day ++ [])) :=
  rfl

theorem render_shape_DMYdot (d : Date) :
    renderFmt fmtDMYdot d = pad2 d.day ++ '.' :: (pad2 d.month ++ '.' :: (pad4 d.year ++ [])) :=
  rfl

theorem render_nospace (f : Fmt) (hf : f ∈ dateFormats) (d : Date) :
    ∀ c ∈ renderFmt f d, pyIsSpace c = false := by
  have hsl : pyIsSpace '/' = false := by decide
  have hda : pyIsSpace '-' = false := by decide
  have hdo : pyIsSpace '.' = false := by decide
  rcases List.mem_cons.mp hf with rfl | hf
  · rw [render_shape_DMYslash]
    exact append_nospace _ _ (pad2_nospace _) (cons_nospace _ _ hsl (append_nospace _ _
      (pad2_nospace _) (cons_nospace _ _ hsl (append_nospace _ _ (pad4_nospace _) nil_nospace))))
  rcases List.mem_cons.mp hf with rfl | hf
  · rw [render_shape_DMYdash]
    exact append_nospace _ _ (pad2_nospace _) (cons_nospace _ _ hda (append_nospace _ _
      (pad2_nospace _) (cons_nospace _ _ hda (append_nospace _ _ (pad4_nospace _) nil_nospace))))
  rcases List.mem_cons.mp hf with rfl | hf
  · rw [render_shape_YMDdash]
    exact append_nospace _ _ (pad4_nospace _) (cons_nospace _ _ hda (append_nospace _ _
      (pad2_nospace _) (cons_nospace _ _ hda (append_nospace _ _ (pad2_nospace _) nil_nospace))))
  rcases List.mem_cons.mp hf with rfl | hf
  · rw [render_shape_MDYslash]
    exact append_nospace _ _ (pad2_nospace _) (cons_nospace _ _ hsl (append_nospace _ _
      (pad2_nospace _) (cons_nospace _ _ hsl (append_nospace _ _ (pad4_nospace _) nil_nospace))))
  rcases List.mem_cons.mp hf with rfl | hf
  · rw [render_shape_YMDslash]
    exact append_nospace _ _ (pad4_nospace _) (cons_nospace _ _ hsl (append_nospace _ _
      (pad2_nospace _) (cons_nospace _ _ hsl (append_nospace _ _ (pad2_nospace _) nil_nospace))))
  rcases List.mem_cons.mp hf with rfl | hf
  · rw [render_shape_DMYdot]
    exact append_nospace _ _ (pad2_nospace _) (cons_nospace _ _ hdo (append_nospace _ _
      (pad2_nospace _) (cons_nospace _ _ hdo (append_nospace _ _ (pad4_nospace _) nil_nospace))))
  cases hf

theorem strptimeF_none_of_runFmt (f : Fmt) (s : PyStr)
    (h : runFmt f ⟨1, 1, 1900⟩ s = none) : strptimeF f s = none := by
  unfold strptimeF
  rw [h]

theorem runFmt_dd_sep_pad4 (rest : Fmt) (sep : Char) (hsep : sep.isDigit = false)
    (acc : PreDate) (y : ℕ) (tail : PyStr) :
    runFmt (FmtItem.dd :: FmtItem.lit sep :: rest) acc (pad4 y ++ tail) = none := by
  rcases readNum2_pad4 31 y tail with h | ⟨v, h2, r2, h, hdig⟩
  · exact runFmt_dd_none _ _ _ h
  · rw [runFmt_dd _ _ _ _ _ h]
    apply runFmt_lit_ne
    intro e
    subst e
    rw [hsep] at hdig
    cases hdig

theorem runFmt_mm_sep_pad4 (rest : Fmt) (sep : Char) (hsep : sep.isDigit = false)
    (acc : PreDate) (y : ℕ) (tail : PyStr) :
    runFmt (FmtItem.mm :: FmtItem.lit sep :: rest) acc (pad4 y ++ tail) = none := by
  rcases readNum2_pad4 12 y tail with h | ⟨v, h2, r2, h, hdig⟩
  · exact runFmt_mm_none _ _ _ h
  · rw [runFmt_mm _ _ _ _ _ h]
    apply runFmt_lit_ne
    intro e
    subst e
    rw [hsep] at hdig
    cases hdig

theorem strptime_own_DMYslash (D : Date) (hD : validDate D = true) :
    strptimeF fmtDMYslash (renderFmt fmtDMYslash D) = some D := by
  obtain ⟨hy1, hy2, hm1, hm2, hd1, hd31⟩ := validDate_bounds D hD
  rw [render_shape_DMYslash]
  unfold strptimeF
  rw [show fmtDMYslash =
    FmtItem.dd :: FmtItem.lit '/' :: FmtItem.mm :: FmtItem.lit '/' :: FmtItem.yyyy :: []
    from rfl]
  rw [runFmt_dd _ _ _ _ _ (readNum2_pad2 31 D.day _ hd1 hd31 (by omega))]
  rw [runFmt_lit]
  rw [runFmt_mm _ _ _ _ _ (readNum2_pad2 12 D.month _ hm1 hm2 (by omega))]
  rw [runFmt_lit]
  rw [runFmt_yyyy _ _ _ _ _ (read4_pad4 D.year _ hy2)]
  rw [runFmt_nil_nil]
  show (if validDate ⟨D.year, D.month, D.day⟩ = true then
    some (⟨D.year, D.month, D.day⟩ : Date) else none) = some D
  have he : (⟨D.year, D.month, D.day⟩ : Date) = D := rfl
  rw [he, if_pos hD]

theorem strptime_own_DMYdash (D : Date) (hD : validDate D = true) :
    strptimeF fmtDMYdash (renderFmt fmtDMYdash D) = some D := by
  obtain ⟨hy1, hy2, hm1, hm2, hd1, hd31⟩ := validDate_bounds D hD
  rw [render_shape_DMYdash]
  unfold strptimeF
  rw [show fmtDMYdash =
    FmtItem.dd :: FmtItem.lit '-' :: FmtItem.mm :: FmtItem.lit '-' :: FmtItem.yyyy :: []
    from rfl]
  rw [runFmt_dd _ _ _ _ _ (readNum2_pad2 31 D.day _ hd1 hd31 (by omega))]
  rw [runFmt_lit]
  rw [runFmt_mm _ _ _ _ _ (readNum2_pad2 12 D.month _ hm1 hm2 (by omega))]
  rw [runFmt_lit]
  rw [runFmt_yyyy _ _ _ _ _ (read4_pad4 D.year _ hy2)]
  rw [runFmt_nil_nil]
  show (if validDate ⟨D.year, D.month, D.day⟩ = true then
    some (⟨D.year, D.month, D.day⟩ : Date) else none) = some D
  have he : (⟨D.year, D.month, D.day⟩ : Date) = D := rfl
  rw [he, if_pos hD]

theorem strptime_own_YMDdash (D : Date) (hD : validDate D = true) :
    strptimeF fmtYMDdash (renderFmt fmtYMDdash D) = some D := by
  obtain ⟨hy1, hy2, hm1, hm2, hd1, hd31⟩ := validDate_bounds D hD
  rw [render_shape_YMDdash]
  unfold strptimeF
  rw [show fmtYMDdash =
    FmtItem.yyyy :: FmtItem.lit '-' :: FmtItem.mm :: FmtItem.lit '-' :: FmtItem.dd :: []
    from rfl]
  rw [runFmt_yyyy _ _ _ _ _ (read4_pad4 D.year _ hy2)]
  rw [runFmt_lit]
  rw [runFmt_mm _ _ _ _ _ (readNum2_pad2 12 D.month _ hm1 hm2 (by omega))]
  rw [runFmt_lit]
  rw [runFmt_dd _ _ _ _ _ (readNum2_pad2 31 D.day _ hd1 hd31 (by omega))]
  rw [runFmt_nil_nil]
  show (if validDate ⟨D.year, D.month, D.day⟩ = true then
    some (⟨D.year, D.month, D.day⟩ : Date) else none) = some D
  have he : (⟨D.year, D.month, D.day⟩ : Date) = D := rfl
  rw [he, if_pos hD]

theorem strptime_own_MDYslash (D : Date) (hD : validDate D = true) :
    strptimeF fmtMDYslash (renderFmt fmtMDYslash D) = some D := by
  obtain ⟨hy1, hy2, hm1, hm2, hd1, hd31⟩ := validDate_bounds D hD
  rw [render_shape_MDYslash]
  unfold strptimeF
  rw [show fmtMDYslash =
    FmtItem.mm :: FmtItem.lit '/' :: FmtItem.dd :: FmtItem.lit '/' :: FmtItem.yyyy :: []
    from rfl]
  rw [runFmt_mm _ _ _ _ _ (readNum2_pad2 12 D.month _ hm1 hm2 (by omega))]
  rw [runFmt_lit]
  rw [runFmt_dd _ _ _ _ _ (readNum2_pad2 31 D.day _ hd1 hd31 (by omega))]
  rw [runFmt_lit]
  rw [runFmt_yyyy _ _ _ _ _ (read4_pad4 D.year _ hy2)]
  rw [runFmt_nil_nil]
  show (if validDate ⟨D.year, D.month, D.day⟩ = true then
    some (⟨D.year, D.month, D.day⟩ : Date) else none) = some D
  have he : (⟨D.year, D.month, D.day⟩ : Date) = D := rfl
  rw [he, if_pos hD]

theorem strptime_own_YMDslash (D : Date) (hD : validDate D = true) :
    strptimeF fmtYMDslash (renderFmt fmtYMDslash D) = some D := by
  obtain ⟨hy1, hy2, hm1, hm2, hd1, hd31⟩ := validDate_bounds D hD
  rw [render_shape_YMDslash]
  unfold strptimeF
  rw [show fmtYMDslash =
    FmtItem.yyyy :: FmtItem.lit '/' :: FmtItem.mm :: FmtItem.lit '/' :: FmtItem.dd :: []
    from rfl]
  rw [runFmt_yyyy _ _ _ _ _ (read4_pad4 D.year _ hy2)]
  rw [runFmt_lit]
  rw [runFmt_mm _ _ _ _ _ (readNum2_pad2 12 D.month _ hm1 hm2 (by omega))]
  rw [runFmt_lit]
  rw [runFmt_dd _ _ _ _ _ (readNum2_pad2 31 D.day _ hd1 hd31 (by omega))]
  rw [runFmt_nil_nil]
  show (if validDate ⟨D.year, D.month, D.day⟩ = true then
    some (⟨D.year, D.month, D.day⟩ : Date) else none) = some D
  have he : (⟨D.year, D.month, D.day⟩ : Date) = D := rfl
  rw [he, if_pos hD]

theorem strptime_own_DMYdot (D : Date) (hD : validDate D = true) :
    strptimeF fmtDMYdot (renderFmt fmtDMYdot D) = some D := by
  obtain ⟨hy1, hy2, hm1, hm2, hd1, hd31⟩ := validDate_bounds D hD
  rw [render_shape_DMYdot]
  unfold strptimeF
  rw [show fmtDMYdot =
    FmtItem.dd :: FmtItem.lit '.' :: FmtItem.mm :: FmtItem.lit '.' :: FmtItem.yyyy :: []
    from rfl]
  rw [runFmt_dd _ _ _ _ _ (readNum2_pad2 31 D.day _ hd1 hd31 (by omega))]
  rw [runFmt_lit]
  rw [runFmt_mm _ _ _ _ _ (readNum2_pad2 12 D.month _ hm1 hm2 (by omega))]
  rw [runFmt_lit]
  rw [runFmt_yyyy _ _ _ _ _ (read4_pad4 D.year _ hy2)]
  rw [runFmt_nil_nil]
  show (if validDate ⟨D.year, D.month, D.day⟩ = true then
    some (⟨D.year, D.month, D.day⟩ : Date) else none) = some D
  have he : (⟨D.year, D.month, D.day⟩ : Date) = D := rfl
  rw [he, if_pos hD]

/-- Shadowing: a month/day/year rendering with day at most 12 parses
successfully under the day-first format, swapping day and month. -/
theorem strptime_F1_on_MDY (D : Date) (hD : validDate D = true) (hle : D.day ≤ 12) :
    strptimeF fmtDMYslash (renderFmt fmtMDYslash D) = some ⟨D.year, D.day, D.month⟩ := by
  obtain ⟨hy1, hy2, hm1, hm2, hd1, hd31⟩ := validDate_bounds D hD
  rw [render_shape_MDYslash]
  unfold strptimeF
  rw [show fmtDMYslash =
    FmtItem.dd :: FmtItem.lit '/' :: FmtItem.mm :: FmtItem.lit '/' :: FmtItem.yyyy :: []
    from rfl]
  rw [runFmt_dd _ _ _ _ _ (readNum2_pad2 31 D.month _ hm1 (by omega) (by omega))]
  rw [runFmt_lit]
  rw [runFmt_mm _ _ _ _ _ (readNum2_pad2 12 D.day _ hd1 hle (by omega))]
  rw [runFmt_lit]
  rw [runFmt_yyyy _ _ _ _ _ (read4_pad4 D.year _ hy2)]
  rw [runFmt_nil_nil]
  show (if validDate ⟨D.year, D.day, D.month⟩ = true then
    some (⟨D.year, D.day, D.month⟩ : Date) else none) = some ⟨D.year, D.day, D.month⟩
  have hv : validDate ⟨D.year, D.day, D.month⟩ = true := by
    unfold validDate
    rw [decide_eq_true_eq]
    have h28 := daysInMonth_ge_28 D.year D.day
    refine ⟨hy1, hy2, hd1, hle, hm1, ?_⟩
    show D.month ≤ daysInMonth D.year D.day
    omega
  rw [if_pos hv]

theorem strptimeF_dd_sep_mismatch (rest : Fmt) (sep x : Char) (hne : x ≠ sep)
    (n : ℕ) (h1 : 1 ≤ n) (h2 : n ≤ 31) (tail : PyStr) :
    strptimeF (FmtItem.dd :: FmtItem.lit sep :: rest) (pad2 n ++ x :: tail) = none := by
  apply strptimeF_none_of_runFmt
  rw [runFmt_dd _ _ _ _ _ (readNum2_pad2 31 n _ h1 h2 (by omega))]
  exact runFmt_lit_ne _ _ _ _ _ hne

theorem strptime_F1_fails_R2 (D : Date) (hD : validDate D = true) :
    strptimeF fmtDMYslash (renderFmt fmtDMYdash D) = none := by
  obtain ⟨hy1, hy2, hm1, hm2, hd1, hd31⟩ := validDate_bounds D hD
  rw [render_shape_DMYdash]
  exact strptimeF_dd_sep_mismatch _ '/' '-' (by decide) D.day hd1 hd31 _

theorem strptime_F1_fails_R3 (D : Date) (_hD : validDate D = true) :
    strptimeF fmtDMYslash (renderFmt fmtYMDdash D) = none := by
  rw [render_shape_YMDdash]
  apply strptimeF_none_of_runFmt
  exact runFmt_dd_sep_pad4 _ '/' (by decide) _ _ _

theorem strptime_F2_fails_R3 (D : Date) (_hD : validDate D = true) :
    strptimeF fmtDMYdash (renderFmt fmtYMDdash D) = none := by
  rw [render_shape_YMDdash]
  apply strptimeF_none_of_runFmt
  exact runFmt_dd_sep_pad4 _ '-' (by decide) _ _ _

theorem strptime_F1_fails_R4_high (D : Date) (hD : validDate D = true) (hge : 13 ≤ D.day) :
    strptimeF fmtDMYslash (renderFmt fmtMDYslash D) = none := by
  obtain ⟨hy1, hy2, hm1, hm2, hd1, hd31⟩ := validDate_bounds D hD
  rw [render_shape_MDYslash]
  apply strptimeF_none_of_runFmt
  rw [show fmtDMYslash =
    FmtItem.dd :: FmtItem.lit '/' :: FmtItem.mm :: FmtItem.lit '/' :: FmtItem.yyyy :: []
    from rfl]
  rw [runFmt_dd _ _ _ _ _ (readNum2_pad2 31 D.month _ hm1 (by omega) (by omega))]
  rw [runFmt_lit]
  rw [runFmt_mm _ _ _ _ _ (readNum2_pad2_high D.day _ hge hd31)]
  exact runFmt_lit_ne _ _ _ _ _
    (digitChar_ne_nondigit _ (Nat.mod_lt _ (by omega)) '/' (by decide))

theorem strptime_F2_fails_R4 (D : Date) (hD : validDate D = true) :
    strptimeF fmtDMYdash (renderFmt fmtMDYslash D) = none := by
  obtain ⟨hy1, hy2, hm1, hm2, hd1, hd31⟩ := validDate_bounds D hD
  rw [render_shape_MDYslash]
  exact strptimeF_dd_sep_mismatch _ '-' '/' (by decide) D.month hm1 (by omega) _

theorem strptime_F3_fails_R4 (D : Date) (_hD : validDate D = true) :
    strptimeF fmtYMDdash (renderFmt fmtMDYslash D) = none := by
  rw [render_shape_MDYslash]
  show strptimeF fmtYMDdash
    (Nat.digitChar (D.month / 10 % 10) :: Nat.digitChar (D.month % 10) :: '/' ::
      Nat.digitChar (D.day / 10 % 10) ::
        (Nat.digitChar (D.day % 10) :: '/' :: (pad4 D.year ++ []))) = none
  apply strptimeF_none_of_runFmt
  apply runFmt_yyyy_none
  exact read4_third_nondigit _ _ _ _ _ (by decide)

theorem strptime_F1_fails_R5 (D : Date) (_hD : validDate D = true) :
    strptimeF fmtDMYslash (renderFmt fmtYMDslash D) = none := by
  rw [render_shape_YMDslash]
  apply strptimeF_none_of_runFmt
  exact runFmt_dd_sep_pad4 _ '/' (by decide) _ _ _

theorem strptime_F2_fails_R5 (D : Date) (_hD : validDate D = true) :
    strptimeF fmtDMYdash (renderFmt fmtYMDslash D) = none := by
  rw [render_shape_YMDslash]
  apply strptimeF_none_of_runFmt
  exact runFmt_dd_sep_pad4 _ '-' (by decide) _ _ _

theorem strptime_F3_fails_R5 (D : Date) (hD : validDate D = true) :
    strptimeF fmtYMDdash (renderFmt fmtYMDslash D) = none := by
  obtain ⟨hy1, hy2, hm1, hm2, hd1, hd31⟩ := validDate_bounds D hD
  rw [render_shape_YMDslash]
  apply strptimeF_none_of_runFmt
  rw [show fmtYMDdash =
    FmtItem.yyyy :: FmtItem.lit '-' :: FmtItem.mm :: FmtItem.lit '-' :: FmtItem.dd :: []
    from rfl]
  rw [runFmt_yyyy _ _ _ _ _ (read4_pad4 D.year _ hy2)]
  exact runFmt_lit_ne _ _ _ _ _ (by decide)

theorem strptime_F4_fails_R5 (D : Date) (_hD : validDate D = true) :
    strptimeF fmtMDYslash (renderFmt fmtYMDslash D) = none := by
  rw [render_shape_YMDslash]
  apply strptimeF_none_of_runFmt
  exact runFmt_mm_sep_pad4 _ '/' (by decide) _ _ _

theorem strptime_F1_fails_R6 (D : Date) (hD : validDate D = true) :
    strptimeF fmtDMYslash (renderFmt fmtDMYdot D) = none := by
  obtain ⟨hy1, hy2, hm1, hm2, hd1, hd31⟩ := validDate_bounds D hD
  rw [render_shape_DMYdot]
  exact strptimeF_dd_sep_mismatch _ '/' '.' (by decide) D.day hd1 hd31 _

theorem strptime_F2_fails_R6 (D : Date) (hD : validDate D = true) :
    strptimeF fmtDMYdash (renderFmt fmtDMYdot D) = none := by
  obtain ⟨hy1, hy2, hm1, hm2, hd1, hd31⟩ := validDate_bounds D hD
  rw [render_shape_DMYdot]
  exact strptimeF_dd_sep_mismatch _ '-' '.' (by decide) D.day hd1 hd31 _

theorem strptime_F3_fails_R6 (D : Date) (_hD : validDate D = true) :
    strptimeF fmtYMDdash (renderFmt fmtDMYdot D) = none := by
  rw [render_shape_DMYdot]
  show strptimeF fmtYMDdash
    (Nat.digitChar (D.day / 10 % 10) :: Nat.digitChar (D.day % 10) :: '.' ::
      Nat.digitChar (D.month / 10 % 10) ::
        (Nat.digitChar (D.month % 10) :: '.' :: (pad4 D.year ++ []))) = none
  apply strptimeF_none_of_runFmt
  apply runFmt_yyyy_none
  exact read4_third_nondigit _ _ _ _ _ (by decide)

theorem strptime_F4_fails_R6 (D : Date) (hD : validDate D = true) :
    strptimeF fmtMDYslash (renderFmt fmtDMYdot D) = none := by
  obtain ⟨hy1, hy2, hm1, hm2, hd1, hd31⟩ := validDate_bounds D hD
  rw [render_shape_DMYdot]
  apply strptimeF_none_of_runFmt
  rw [show fmtMDYslash =
    FmtItem.mm :: FmtItem.lit '/' :: FmtItem.dd :: FmtItem.lit '/' :: FmtItem.yyyy :: []
    from rfl]
  by_cases hle : D.day ≤ 12
  · rw [runFmt_mm _ _ _ _ _ (readNum2_pad2 12 D.day _ hd1 hle (by omega))]
    exact runFmt_lit_ne _ _ _ _ _ (by decide)
  · rw [runFmt_mm _ _ _ _ _ (readNum2_pad2_high D.day _ (by omega) hd31)]
    exact runFmt_lit_ne _ _ _ _ _
      (digitChar_ne_nondigit _ (Nat.mod_lt _ (by omega)) '/' (by decide))

theorem strptime_F5_fails_R6 (D : Date) (_hD : validDate D = true) :
    strptimeF fmtYMDslash (renderFmt fmtDMYdot D) = none := by
  rw [render_shape_DMYdot]
  show strptimeF fmtYMDslash
    (Nat.digitChar (D.day / 10 % 10) :: Nat.digitChar (D.day % 10) :: '.' ::
      Nat.digitChar (D.month / 10 % 10) ::
        (Nat.digitChar (D.month % 10) :: '.' :: (pad4 D.year ++ []))) = none
  apply strptimeF_none_of_runFmt
  apply runFmt_yyyy_none
  exact read4_third_nondigit _ _ _ _ _ (by decide)

theorem tryFormats_cons_some (f : Fmt) (fs : List Fmt) (s : PyStr) (d : Date)
    (h : strptimeF f s = some d) : tryFormats (f :: fs) s = some d := by
  rw [tryFormats, h]

theorem tryFormats_cons_none (f : Fmt) (fs : List Fmt) (s : PyStr)
    (h : strptimeF f s = none) : tryFormats (f :: fs) s = tryFormats fs s := by
  rw [tryFormats, h]

theorem tryFormats_render (F : Fmt) (hF : F ∈ dateFormats) (D : Date)
    (hD : validDate D = true)
    (hx : F ≠ fmtMDYslash ∨ 12 < D.day ∨ D.day = D.month) :
    tryFormats dateFormats (renderFmt F D) = some D := by
  rw [show dateFormats =
    fmtDMYslash :: fmtDMYdash :: fmtYMDdash :: fmtMDYslash :: fmtYMDslash :: fmtDMYdot :: []
    from rfl]
  rcases List.mem_cons.mp hF with rfl | hF
  · exact tryFormats_cons_some _ _ _ _ (strptime_own_DMYslash D hD)
  rcases List.mem_cons.mp hF with rfl | hF
  · rw [tryFormats_cons_none _ _ _ (strptime_F1_fails_R2 D hD)]
    exact tryFormats_cons_some _ _ _ _ (strptime_own_DMYdash D hD)
  rcases List.mem_cons.mp hF with rfl | hF
  · rw [tryFormats_cons_none _ _ _ (strptime_F1_fails_R3 D hD)]
    rw [tryFormats_cons_none _ _ _ (strptime_F2_fails_R3 D hD)]
    exact tryFormats_cons_some _ _ _ _ (strptime_own_YMDdash D hD)
  rcases List.mem_cons.mp hF with rfl | hF
  · by_cases hle : D.day ≤ 12
    · have hdm : D.day = D.month := by
        rcases hx with hx | hx | hx
        · exact absurd rfl hx
        · omega
        · exact hx
      rw [tryFormats_cons_some _ _ _ _ (strptime_F1_on_MDY D hD hle)]
      obtain ⟨y, m, d⟩ := D
      show some (⟨y, d, m⟩ : Date) = some ⟨y, m, d⟩
      have hdm2 : d = m := hdm
      rw [hdm2]
    · rw [tryFormats_cons_none _ _ _ (strptime_F1_fails_R4_high D hD (by omega))]
      rw [tryFormats_cons_none _ _ _ (strptime_F2_fails_R4 D hD)]
      rw [tryFormats_cons_none _ _ _ (strptime_F3_fails_R4 D hD)]
      exact tryFormats_cons_some _ _ _ _ (strptime_own_MDYslash D hD)
  rcases List.mem_cons.mp hF with rfl | hF
  · rw [tryFormats_cons_none _ _ _ (strptime_F1_fails_R5 D hD)]
    rw [tryFormats_cons_none _ _ _ (strptime_F2_fails_R5 D hD)]
    rw [tryFormats_cons_none _ _ _ (strptime_F3_fails_R5 D hD)]
    rw [tryFormats_cons_none _ _ _ (strptime_F4_fails_R5 D hD)]
    exact tryFormats_cons_some _ _ _ _ (strptime_own_YMDslash D hD)
  rcases List.mem_cons.mp hF with rfl | hF
  · rw [tryFormats_cons_none _ _ _ (strptime_F1_fails_R6 D hD)]
    rw [tryFormats_cons_none _ _ _ (strptime_F2_fails_R6 D hD)]
    rw [tryFormats_cons_none _ _ _ (strptime_F3_fails_R6 D hD)]
    rw [tryFormats_cons_none _ _ _ (strptime_F4_fails_R6 D hD)]
    rw [tryFormats_cons_none _ _ _ (strptime_F5_fails_R6 D hD)]
    exact tryFormats_cons_some _ _ _ _ (strptime_own_DMYdot D hD)
  cases hF

/-- C4 fails as stated: the strict-format list tries day/month/year with
"/" before month/day/year with "/", so a month-first rendering with a day
at most 12 is parsed day-first. March 7 2024 rendered month-first is
"03/07/2024", which round-trips to "03/07/2024" (July 3), not to the
required "07/03/2024". -/
theorem claim4_counterexample :
    fmtMDYslash ∈ dateFormats ∧
    validDate ⟨2024, 3, 7⟩ = true ∧
    renderFmt fmtMDYslash ⟨2024, 3, 7⟩ = ("03/07/2024").data ∧
    ddmmyyyy ⟨2024, 3, 7⟩ = ("07/03/2024").data ∧
    formatDateCell (fun _ => none) (Cell.str (renderFmt fmtMDYslash ⟨2024, 3, 7⟩)) =
      ("03/07/2024").data ∧
    formatDateCell (fun _ => none) (Cell.str (renderFmt fmtMDYslash ⟨2024, 3, 7⟩)) ≠
      ddmmyyyy ⟨2024, 3, 7⟩ := by
  refine ⟨by decide, by decide, by decide, by decide, by decide, by decide⟩

/-- C4 (amended): for every fallback parser, every format F in the
strict-format list and every valid calendar date D, parsing D rendered
under F and re-rendering yields the zero-padded DD/MM/YYYY form of D -
EXCEPT under the month/day/year format, where this holds only when the
day exceeds 12 or equals the month (otherwise the day-first format,
tried earlier, shadows it and swaps day and month). -/
theorem claim4_amended_roundtrip (fb : PyStr → Option Date) (F : Fmt)
    (hF : F ∈ dateFormats) (D : Date) (hD : validDate D = true)
    (hx : F ≠ fmtMDYslash ∨ 12 < D.day ∨ D.day = D.month) :
    formatDateCell fb (Cell.str (renderFmt F D)) = ddmmyyyy D := by
  have hparse : parse_date_value fb (Cell.str (renderFmt F D)) = some D := by
    simp only [parse_date_value]
    rw [pyStrip_of_nospace _ (render_nospace F hF D)]
    rw [tryFormats_render F hF D hD hx]
  unfold formatDateCell
  rw [hparse]
  show renderFmt fmtDMYslash D = ddmmyyyy D
  rfl

theorem claim4_amended_witness :
    formatDateCell fb0 (Cell.str (renderFmt fmtYMDdash ⟨2024, 3, 7⟩)) =
      ddmmyyyy ⟨2024, 3, 7⟩ :=
  claim4_amended_roundtrip fb0 fmtYMDdash (by decide) ⟨2024, 3, 7⟩ (by decide)
    (Or.inl (by decide))
